import Mathlib

/-!
Verification development for the two dashboard pipelines of this
repository (dashboard 1: the hidden-gems finder; dashboard 2: the
accessible-excellence explorer).  The Python source is shallowly
embedded: a dataframe cell is a `Value` (a NaN marker, a non-NaN
number, or a string), a dataframe is a column-ordered association
list, and the loader and filter code are translated function by
function.  Python floats are modelled by rationals; NaN is the
separate constructor `Value.nan`.
-/

/-- The content of one dataframe cell: the NaN/missing marker, a
non-NaN number (int or float, modelled by a rational), or a string. -/
inductive Value where
  | nan : Value
  | num (q : ℚ) : Value
  | str (s : String) : Value
deriving DecidableEq, Repr

/-- The digits of a decimal literal read as a natural number. -/
def digitsVal (ds : List Char) : ℕ :=
  ds.foldl (fun n c => 10 * n + (c.toNat - 48)) 0

/-- Split an optional leading sign off a character list; the Bool is
true when the sign is a minus. -/
def splitSign : List Char → Bool × List Char
  | '-' :: cs => (true, cs)
  | '+' :: cs => (false, cs)
  | cs => (false, cs)

/-- Drop characters satisfying a predicate from both ends of a list
(the model of Python str.strip). -/
def stripEnds (p : Char → Bool) (cs : List Char) : List Char :=
  ((cs.dropWhile p).reverse.dropWhile p).reverse

/-- Parse an optional exponent part (the tail after the mantissa of a
float literal); the empty tail means exponent 0, anything else must be
an e or E followed by a signed digit string. -/
def parseExpPart : List Char → Option ℤ
  | [] => some 0
  | c :: cs =>
    if c = 'e' ∨ c = 'E' then
      let sr := splitSign cs
      let ds := sr.2.takeWhile Char.isDigit
      let rest := sr.2.dropWhile Char.isDigit
      if ds = [] ∨ rest ≠ [] then none
      else some (if sr.1 then -(digitsVal ds : ℤ) else (digitsVal ds : ℤ))
    else none

/-- Parse a whitespace-stripped decimal float literal: optional sign,
integer digits, optional fractional part, optional exponent.  The
value is assembled as an integer quotient so that the resulting
rational is the exact value of the literal. -/
def pyFloatCore (cs : List Char) : Option ℚ :=
  let sr := splitSign cs
  let ip := sr.2.takeWhile Char.isDigit
  let r1 := sr.2.dropWhile Char.isDigit
  let fpr2 : List Char × List Char :=
    match r1 with
    | '.' :: t => (t.takeWhile Char.isDigit, t.dropWhile Char.isDigit)
    | _ => ([], r1)
  let fp := fpr2.1
  if ip = [] ∧ fp = [] then none
  else
    match parseExpPart fpr2.2 with
    | none => none
    | some e =>
      let base : ℤ := (digitsVal ip * 10 ^ fp.length + digitsVal fp : ℕ)
      let n : ℤ := if 0 ≤ e then base * 10 ^ e.toNat else base
      let d : ℤ := if 0 ≤ e then (10 ^ fp.length : ℕ)
                   else (10 ^ fp.length * 10 ^ (-e).toNat : ℕ)
      some (if sr.1 then -(Rat.divInt n d) else Rat.divInt n d)

/-- The model of the Python float builtin on a character list:
surrounding whitespace is ignored, the remainder must be a decimal
float literal, and failure is `none` (a ValueError in Python). -/
def pyFloat (cs : List Char) : Option ℚ :=
  pyFloatCore (stripEnds Char.isWhitespace cs)

/-- str.strip applied with the percent sign, as in convert_percentage. -/
def stripPct (s : String) : List Char :=
  stripEnds (fun c => c = '%') s.data

/-- convert_percentage from load_data of 2app.py: a string is stripped
of percent signs at both ends, parsed as a float and divided by 100 —
with no exception handling, so an unparseable string is a ValueError
(`Except.error`); every non-string value passes through unchanged. -/
def convert_percentage (v : Value) : Except String Value :=
  match v with
  | Value.str s =>
    match pyFloat (stripPct s) with
    | some q => Except.ok (Value.num (q / 100))
    | none => Except.error "ValueError"
  | v => Except.ok v

/-- safe_float from load_data of 2app.py: NaN stays NaN; a string has
every dollar sign and every comma removed and is parsed as a float,
with ValueError caught to NaN; a non-string non-NaN value (int or
float) hits AttributeError on the replace call, also caught to NaN. -/
def safe_float (v : Value) : Value :=
  match v with
  | Value.nan => Value.nan
  | Value.num _ => Value.nan
  | Value.str s =>
    match pyFloat ((s.data.filter (fun c => !(c = '$' : Bool))).filter
        (fun c => !(c = ',' : Bool))) with
    | some q => Value.num q
    | none => Value.nan

/-- pd.to_numeric with errors set to coerce, applied to one cell:
numbers and NaN pass through, a string parses as a float or becomes
NaN. -/
def to_numeric (v : Value) : Value :=
  match v with
  | Value.nan => Value.nan
  | Value.num q => Value.num q
  | Value.str s =>
    match pyFloat s.data with
    | some q => Value.num q
    | none => Value.nan

/-- The dict map building Institution Type: Control code 1 is Public,
code 2 is Private, any other value is absent from the dict and maps to
NaN (pandas Series.map semantics). -/
def control_map (v : Value) : Value :=
  if v = Value.num 1 then Value.str "Public"
  else if v = Value.num 2 then Value.str "Private"
  else Value.nan

/-- A dataframe: the columns in order, each a name paired with its
cells. -/
abbrev Table : Type := List (String × List Value)

/-- Column-name membership test, the model of the Python expression
testing a name against df.columns. -/
def nameHasCol (ns : List String) (c : String) : Bool :=
  ns.any (fun n => decide (n = c))

/-- The column names of a table, in order (df.columns). -/
def colNames (t : Table) : List String :=
  t.map Prod.fst

/-- Whether df has a column of the given name. -/
def hasCol (t : Table) (c : String) : Bool :=
  nameHasCol (colNames t) c

/-- Column read df[c]: a missing column is a KeyError. -/
def getCol (t : Table) (c : String) : Except String (List Value) :=
  match List.find? (fun p => decide (p.1 = c)) t with
  | some p => Except.ok p.2
  | none => Except.error ("KeyError: " ++ c)

/-- Column write df[c] = cells: overwrite an existing column in place,
otherwise append a new one at the end. -/
def setCol (t : Table) (c : String) (vs : List Value) : Table :=
  if hasCol t c then
    t.map (fun p => if decide (p.1 = c) then (c, vs) else p)
  else t ++ [(c, vs)]

/-- df[c] = df[c].apply(f) for a pure f: map f over the cells of every
column named c. -/
def applyCol (c : String) (f : Value → Value) (t : Table) : Table :=
  t.map (fun p => if decide (p.1 = c) then (p.1, p.2.map f) else p)

/-- Apply a fallible per-cell function along a list of cells, stopping
at the first raised exception (Series.apply with a raising function). -/
def mapME (f : Value → Except String Value) : List Value → Except String (List Value)
  | [] => Except.ok []
  | v :: vs => do
    let w ← f v
    let ws ← mapME f vs
    Except.ok (w :: ws)

/-- df[c] = df[c].apply(f) for a fallible f: the cells of every column
named c go through f, and an exception from any cell aborts. -/
def applyColE (c : String) (f : Value → Except String Value) : Table → Except String Table
  | [] => Except.ok []
  | p :: t =>
    if decide (p.1 = c) then do
      let vs ← mapME f p.2
      let t2 ← applyColE c f t
      Except.ok ((p.1, vs) :: t2)
    else do
      let t2 ← applyColE c f t
      Except.ok (p :: t2)

/-- The percentage-formatted columns of 2app.py. -/
def percentage_columns : List String :=
  ["Acceptance Rate 2022 (IPEDS)", "6 Year Grad Rate 2022 (IPEDS)",
   "FTFT Grad Rate (6 Years) 2015-2016 Cohort (Bain)", "Yield Rate 2022 (IPEDS)"]

/-- The display-name mapping of 2app.py. -/
def column_mapping : List (String × String) :=
  [("Institution Name", "Name"),
   ("Acceptance Rate 2022 (IPEDS)", "Admission Rate"),
   ("Earnings-to-Price Ratio (Itzkowitz)", "Earnings to Price Ratio"),
   ("6 Year Grad Rate 2022 (IPEDS)", "Graduation Rate"),
   ("Control of institution (IPEDS)", "Control"),
   ("City location of institution (HD2022)", "City"),
   ("State abbreviation (HD2022)", "State"),
   ("Average net price over four years (Itkowitz)", "Four Year Cost"),
   ("Yield Rate 2022 (IPEDS)", "Yield Rate")]

/-- The new name of one column under the restriction of column_mapping
to keys present among the given column names (the dict comprehension
feeding df.rename). -/
def renameName (ns : List String) (n : String) : String :=
  match List.find? (fun q => decide (q.1 = n))
      (column_mapping.filter (fun q => nameHasCol ns q.1)) with
  | some q => q.2
  | none => n

/-- df.rename over the filtered column_mapping. -/
def renameCols (t : Table) : Table :=
  t.map (fun p => (renameName (colNames t) p.1, p.2))

/-- One iteration of the percentage loop of load_data: the column goes
through convert_percentage when present and is skipped otherwise. -/
def pctStep (t : Table) (col : String) : Except String Table :=
  if hasCol t col then applyColE col convert_percentage t else Except.ok t

/-- The part of load_data after the percentage loop: safe_float over
the net-price column when present, numeric coercion over the
earnings-ratio column when present, the rename, the Institution Type
derivation (an unguarded read of the Control column), and the
unguarded diagnostic read of the renamed earnings-ratio column for the
describe call. -/
def load_tail (df : Table) : Except String Table := do
  let df := if hasCol df "Average net price over four years (Itkowitz)" then
      applyCol "Average net price over four years (Itkowitz)" safe_float df else df
  let df := if hasCol df "Earnings-to-Price Ratio (Itzkowitz)" then
      applyCol "Earnings-to-Price Ratio (Itzkowitz)" to_numeric df else df
  let df := renameCols df
  let ctrl ← getCol df "Control"
  let df := setCol df "Institution Type" (ctrl.map control_map)
  let _ ← getCol df "Earnings to Price Ratio"
  Except.ok df

/-- load_data of 2app.py after the CSV read: the percentage-coercion
loop over the four designated columns, then the rest of the body. -/
def load_data (df : Table) : Except String Table := do
  let df ← percentage_columns.foldlM pctStep df
  load_tail df

/-- Case-insensitive character comparison, the model of matching one
literal pattern character under the IGNORECASE flag. -/
def charCI (a b : Char) : Bool :=
  decide (a.toLower = b.toLower)

/-- One compiled token of a search pattern: a literal character, or
the dot metacharacter, which matches any character.  The model covers
the regex dialect only up to the dot; patterns holding any further
metacharacter are outside the model. -/
inductive RTok where
  | lit (c : Char) : RTok
  | dot : RTok
deriving DecidableEq

/-- Pattern compilation: a dot becomes the any-character token and
every other character a literal. -/
def compilePat (cs : List Char) : List RTok :=
  cs.map (fun c => if c = '.' then RTok.dot else RTok.lit c)

/-- Whether one pattern token matches one subject character. -/
def tokMatch : RTok → Char → Bool
  | RTok.lit a, b => charCI a b
  | RTok.dot, _ => true

/-- Whether the whole pattern matches at the start of the subject. -/
def matchHere : List RTok → List Char → Bool
  | [], _ => true
  | _ :: _, [] => false
  | t :: ts, b :: bs => tokMatch t b && matchHere ts bs

/-- re.search: whether the pattern matches at any position of the
subject. -/
def regexSearch (pat : List RTok) : List Char → Bool
  | [] => matchHere pat []
  | b :: bs => matchHere pat (b :: bs) || regexSearch pat bs

/-- Series.str.contains with case set to False and na set to False,
applied to one cell: a string cell is searched for the pattern as a
case-insensitive regular expression, and any non-string cell gives
False. -/
def str_contains (v : Value) (pat : String) : Bool :=
  match v with
  | Value.str s => regexSearch (compilePat pat.data) s.data
  | _ => false

/-- Case-insensitive one-position match of a plain substring. -/
def leadMatch : List Char → List Char → Bool
  | [], _ => true
  | _ :: _, [] => false
  | a :: as, b :: bs => charCI a b && leadMatch as bs

/-- Case-insensitive substring occurrence at any position. -/
def substrSearch (pat : List Char) : List Char → Bool
  | [] => leadMatch pat []
  | b :: bs => leadMatch pat (b :: bs) || substrSearch pat bs

/-- The name filter as the spec words it: a case-insensitive plain
substring match of the search string against the Name, with a missing
name never matching.  Stated from the spec for comparison against
str_contains, which is what the code runs. -/
def spec_substring_match (v : Value) (pat : String) : Bool :=
  match v with
  | Value.str s => substrSearch pat.data s.data
  | _ => false

/-- The currency coercion as the spec words it: NaN stays missing, a
string loses one leading currency symbol and its thousands separators
and the remainder parses as a float, any parse failure is missing.
Stated from the spec for comparison against safe_float, which is what
the code runs. -/
def spec_currency_parse (v : Value) : Value :=
  match v with
  | Value.nan => Value.nan
  | Value.num _ => Value.nan
  | Value.str s =>
    let cs := match s.data with
      | '$' :: r => r
      | r => r
    match pyFloat (cs.filter (fun c => !(c = ',' : Bool))) with
    | some q => Value.num q
    | none => Value.nan

/-- One normalized row of dashboard 1 as the filter engine reads it:
the pandas row index and the four columns the filter mask touches. -/
structure Record where
  idx : ℕ
  name : Value
  admissionRate : Value
  graduationRate : Value
  earningsRatio : Value
deriving DecidableEq

/-- The user inputs of dashboard 1: the three slider ranges and the
search box. -/
structure Constraints where
  adLo : ℚ
  adHi : ℚ
  grLo : ℚ
  grHi : ℚ
  erLo : ℚ
  erHi : ℚ
  search : String

/-- Series.between with inclusive both, applied to one cell: a number
must lie in [lo, hi]; NaN (and any non-number) fails both
comparisons. -/
def between (v : Value) (lo hi : ℚ) : Bool :=
  match v with
  | Value.num q => decide (lo ≤ q) && decide (q ≤ hi)
  | _ => false

/-- Series.isna applied to one cell. -/
def isna : Value → Bool
  | Value.nan => true
  | _ => false

/-- The boolean mask of the filtered_df expression of 2app.py, one row
at a time: admission rate between, and graduation rate between, and
(earnings ratio between or earnings ratio isna), and name contains the
search term. -/
def rowMask (c : Constraints) (r : Record) : Bool :=
  between r.admissionRate c.adLo c.adHi &&
  between r.graduationRate c.grLo c.grHi &&
  (between r.earningsRatio c.erLo c.erHi || isna r.earningsRatio) &&
  str_contains r.name c.search

/-- filtered_df of 2app.py: the rows of the full table satisfying the
mask. -/
def filtered_df (df : List Record) (c : Constraints) : List Record :=
  df.filter (rowMask c)

/-- filtered_out_df of 2app.py: the rows whose index is not among the
indices of filtered_df — the complement is taken by row index, not by
re-running the predicates. -/
def filtered_out_df (df : List Record) (c : Constraints) : List Record :=
  df.filter (fun r => !(((filtered_df df c).map Record.idx).contains r.idx))

/-- One normalized row of dashboard 2 as its filter reads it. -/
structure Record2 where
  name : Value
  state : Value
  fitRating : Value
  institutionType : Value
deriving DecidableEq

/-- The user inputs of dashboard 2: the three multiselects and the
search box. -/
structure Constraints2 where
  selectedRatings : List Value
  selectedTypes : List Value
  selectedStates : List String
  search : String

/-- Series.isin against a list of cell values, one cell at a time
(pandas matches NaN to NaN here). -/
def isinV (v : Value) (vs : List Value) : Bool :=
  vs.any (fun w => decide (v = w))

/-- Series.isin against the selected state strings, one cell at a
time: only a string cell equal to a member matches. -/
def isinStr (v : Value) (ss : List String) : Bool :=
  match v with
  | Value.str s => ss.any (fun x => decide (x = s))
  | _ => false

/-- The first boolean mask of streamlit_app.py: fit rating isin, and
institution type isin, and name contains the search term. -/
def baseMask2 (c : Constraints2) (r : Record2) : Bool :=
  isinV r.fitRating c.selectedRatings &&
  isinV r.institutionType c.selectedTypes &&
  str_contains r.name c.search

/-- filtered_df of streamlit_app.py: the base mask always applies, and
the state membership test applies only when the selected-states list
is non-empty (the truthiness test on selected_states). -/
def filtered_df2 (df : List Record2) (c : Constraints2) : List Record2 :=
  let base := df.filter (baseMask2 c)
  if c.selectedStates.isEmpty then base
  else base.filter (fun r => isinStr r.state c.selectedStates)

/-- The three-record table of the spec scenario: A with admission rate
0.3 and missing ratio, B with 0.6 and ratio 1.5, C with 0.9 and ratio
3.0. -/
def sampleDf : List Record :=
  [⟨0, Value.str "A", Value.num (Rat.divInt 3 10), Value.num (Rat.divInt 1 2), Value.nan⟩,
   ⟨1, Value.str "B", Value.num (Rat.divInt 6 10), Value.num (Rat.divInt 1 2),
      Value.num (Rat.divInt 3 2)⟩,
   ⟨2, Value.str "C", Value.num (Rat.divInt 9 10), Value.num (Rat.divInt 1 2),
      Value.num 3⟩]

/-- The scenario constraints: admission range [0, 0.7], graduation
range [0, 1], earnings range [1, 2], empty search. -/
def sampleC : Constraints :=
  ⟨0, Rat.divInt 7 10, 0, 1, 1, 2, ""⟩

/-- The metacharacters of the regex dialect behind Series.str.contains;
search strings avoiding all of them are matched purely literally. -/
def regexMeta : List Char :=
  ['.', '^', '*', '+', '?', '[', ']', '(', ')', '|', '\\',
   Char.ofNat 36, Char.ofNat 123, Char.ofNat 125]

/-- Whether a search string holds no regex metacharacter at all. -/
def noMeta (pat : String) : Bool :=
  pat.data.all (fun c => !(regexMeta.contains c))

/-- A row of dashboard 1 with a missing admission rate, for witnesses. -/
def sampleNaN : Record :=
  ⟨7, Value.str "D", Value.nan, Value.num 1, Value.num 1⟩

/-- Two rows of dashboard 2, for witnesses. -/
def sampleDf2 : List Record2 :=
  [⟨Value.str "Alpha College", Value.str "PA", Value.str "AAA", Value.str "Public"⟩,
   ⟨Value.str "Beta College", Value.str "OH", Value.str "AAB", Value.str "Private"⟩]

/-- Dashboard-2 constraints with no state selected. -/
def sampleC2 : Constraints2 :=
  ⟨[Value.str "AAA", Value.str "AAB"], [Value.str "Public", Value.str "Private"], [], ""⟩

/-- Dashboard-2 constraints selecting one state. -/
def sampleC2PA : Constraints2 :=
  ⟨[Value.str "AAA", Value.str "AAB"], [Value.str "Public", Value.str "Private"], ["PA"], ""⟩

/-- The third scenario row (admission rate 0.9, ratio 3.0), for
witnesses. -/
def sampleRecC : Record :=
  ⟨2, Value.str "C", Value.num (Rat.divInt 9 10), Value.num (Rat.divInt 1 2), Value.num 3⟩

/-- The first dashboard-2 sample row, for witnesses. -/
def sampleRec2 : Record2 :=
  ⟨Value.str "Alpha College", Value.str "PA", Value.str "AAA", Value.str "Public"⟩

/-! Helper lemmas shared by several results. -/

theorem except_isOk_iff {α : Type} (e : Except String α) :
    e.isOk = true ↔ ∃ a, e = Except.ok a := by
  cases e with
  | error err => simp [Except.isOk, Except.toBool]
  | ok a => simp [Except.isOk, Except.toBool]

theorem safe_float_total (v : Value) :
    safe_float v = Value.nan ∨ ∃ q : ℚ, safe_float v = Value.num q := by
  cases v with
  | nan => exact Or.inl rfl
  | num q => exact Or.inl rfl
  | str s =>
    rcases hpf : pyFloat ((s.data.filter (fun c => !(c = '$' : Bool))).filter
        (fun c => !(c = ',' : Bool))) with _ | q
    · refine Or.inl ?_
      simp only [safe_float]
      rw [hpf]
    · refine Or.inr ⟨q, ?_⟩
      simp only [safe_float]
      rw [hpf]

/-- C7: Institution Type is derived strictly from the coded Control
value by the mapping code 1 to Public and code 2 to Private; every
other value (for example code 9) produces missing, never a default. -/
theorem C7_institution_type :
    control_map (Value.num 1) = Value.str "Public" ∧
    control_map (Value.num 2) = Value.str "Private" ∧
    (∀ v : Value, v ≠ Value.num 1 → v ≠ Value.num 2 → control_map v = Value.nan) := by
  refine ⟨rfl, rfl, ?_⟩
  intro v h1 h2
  unfold control_map
  rw [if_neg h1, if_neg h2]

/-- Witness for C7 at the concrete unmapped code 9. -/
theorem C7_institution_type_witness :
    control_map (Value.num 9) = Value.nan :=
  C7_institution_type.2.2 (Value.num 9) (by decide) (by decide)

/-- C10: a four-year-cost input that is already a non-NaN number (int
or float) is discarded by safe_float: the replace call raises
AttributeError on a non-string, the handler catches it, and the result
is missing. -/
theorem C10_numeric_cost_discarded (q : ℚ) :
    safe_float (Value.num q) = Value.nan := rfl

/-- Witness for C10 at the concrete numeric input 42. -/
theorem C10_numeric_cost_discarded_witness :
    safe_float (Value.num 42) = Value.nan :=
  C10_numeric_cost_discarded 42

/-- Counterexample to C6 as stated: safe_float removes every dollar
sign, not only a leading one, so on the input string 1$2 the code
parses 12.0 while the stated strip-a-leading-symbol procedure yields
missing. -/
theorem C6_leading_symbol_counterexample :
    safe_float (Value.str "1$2") = Value.num 12 ∧
    spec_currency_parse (Value.str "1$2") = Value.nan :=
  ⟨rfl, rfl⟩

/-- C6 amended: currency coercion removes every occurrence of the
dollar sign and of the comma and parses the remainder as a float; the
stated examples hold, a NaN input yields missing, a malformed input
yields missing, and the function always returns a number or missing,
never an exception. -/
theorem C6_currency_amended :
    safe_float (Value.str "$12,345") = Value.num 12345 ∧
    safe_float (Value.str "$0") = Value.num 0 ∧
    safe_float Value.nan = Value.nan ∧
    safe_float (Value.str "N/A") = Value.nan ∧
    (∀ v : Value, safe_float v = Value.nan ∨ ∃ q : ℚ, safe_float v = Value.num q) :=
  ⟨rfl, rfl, rfl, rfl, safe_float_total⟩

/-- Witness for C6 amended, evaluated at one concrete malformed string. -/
theorem C6_currency_amended_witness :
    safe_float (Value.str "abc") = Value.nan ∨ ∃ q : ℚ, safe_float (Value.str "abc") = Value.num q :=
  C6_currency_amended.2.2.2.2 (Value.str "abc")

/-- Counterexample to C2 as stated: the percentage coercion has no
exception handler, so the non-numeric string N/A raises a ValueError
(modelled as Except.error) instead of becoming missing; the error
aborts load_data. -/
theorem C2_percentage_raises_counterexample :
    convert_percentage (Value.str "N/A") = Except.error "ValueError" := rfl

/-- C2 amended: currency parsing never raises and maps unparseable
values to missing, never zero; percentage coercion passes every
non-string value through unchanged without raising, returns the parsed
value divided by 100 on a parseable string, but raises a ValueError on
a string whose percent-stripped form is not numeric, which aborts the
normalization pipeline. -/
theorem C2_parsing_amended :
    (∀ v : Value, safe_float v = Value.nan ∨ ∃ q : ℚ, safe_float v = Value.num q) ∧
    safe_float (Value.str "N/A") = Value.nan ∧
    (∀ q : ℚ, convert_percentage (Value.num q) = Except.ok (Value.num q)) ∧
    convert_percentage Value.nan = Except.ok Value.nan ∧
    (∀ s : String, ∀ q : ℚ, pyFloat (stripPct s) = some q →
      convert_percentage (Value.str s) = Except.ok (Value.num (q / 100))) ∧
    (∀ s : String, pyFloat (stripPct s) = none →
      convert_percentage (Value.str s) = Except.error "ValueError") := by
  refine ⟨safe_float_total, rfl, fun q => rfl, rfl, ?_, ?_⟩
  · intro s q h
    simp [convert_percentage, h]
  · intro s h
    simp [convert_percentage, h]

/-- Witness for C2 amended at the concrete unparseable string abc. -/
theorem C2_parsing_amended_witness :
    convert_percentage (Value.str "abc") = Except.error "ValueError" :=
  C2_parsing_amended.2.2.2.2.2 "abc" (by decide)

/-- C4: with a missing earnings ratio the ratio clause of the row mask
is satisfied, so the row is included or excluded purely by the other
filters; with a present ratio outside the selected range the whole row
mask is false; and the between test used by the other numeric filters
rejects a missing value. -/
theorem C4_ratio_missing_pass (c : Constraints) (r : Record) :
    (r.earningsRatio = Value.nan →
      (rowMask c r = true ↔
        (between r.admissionRate c.adLo c.adHi = true ∧
         between r.graduationRate c.grLo c.grHi = true ∧
         str_contains r.name c.search = true))) ∧
    (∀ q : ℚ, r.earningsRatio = Value.num q → (q < c.erLo ∨ c.erHi < q) →
      rowMask c r = false) ∧
    (∀ lo hi : ℚ, between Value.nan lo hi = false) := by
  refine ⟨?_, ?_, fun lo hi => rfl⟩
  · intro h
    simp [rowMask, h, isna, between, and_assoc]
  · intro q h hout
    have hb : between (Value.num q) c.erLo c.erHi = false := by
      rcases hout with h1 | h1
      · have hd : (decide (c.erLo ≤ q)) = false := decide_eq_false (not_le.mpr h1)
        simp [between, hd]
      · have hd : (decide (q ≤ c.erHi)) = false := decide_eq_false (not_le.mpr h1)
        simp [between, hd]
    simp [rowMask, h, hb, isna]

/-- Witness for C4 at the scenario row C, whose ratio 3.0 lies above
the selected range [1, 2]. -/
theorem C4_ratio_missing_pass_witness :
    rowMask sampleC sampleRecC = false :=
  (C4_ratio_missing_pass sampleC sampleRecC).2.1 3 rfl (Or.inr (by decide))

/-- C8: the numeric range test is inclusive at both ends — a value
equal to either bound passes — and a row whose admission rate is
missing fails the whole row mask through the ordinary failure of the
between test. -/
theorem C8_range_inclusive (lo hi : ℚ) (h : lo ≤ hi) (c : Constraints) (r : Record) :
    between (Value.num lo) lo hi = true ∧
    between (Value.num hi) lo hi = true ∧
    (r.admissionRate = Value.nan → rowMask c r = false) := by
  refine ⟨?_, ?_, ?_⟩
  · simp [between, h]
  · simp [between, h]
  · intro hr
    simp [rowMask, between, hr]

/-- Witness for C8 at the bounds 0 and 1 and a row with a missing
admission rate. -/
theorem C8_range_inclusive_witness :
    rowMask sampleC sampleNaN = false :=
  (C8_range_inclusive 0 1 (by decide) sampleC sampleNaN).2.2 rfl

/-- An empty compiled pattern matches every subject. -/
theorem regexSearch_empty_pat (l : List Char) : regexSearch [] l = true := by
  cases l <;> rfl

/-- Over a pattern with no dot, anchored regex matching coincides with
anchored substring matching. -/
theorem matchHere_all_lit (pat : List Char) (hp : ∀ c ∈ pat, ¬ c = '.') :
    ∀ l : List Char, matchHere (compilePat pat) l = leadMatch pat l := by
  induction pat with
  | nil => intro l; rfl
  | cons a as ih =>
    intro l
    have ha : ¬ a = '.' := hp a (List.mem_cons_self a as)
    cases l with
    | nil => rfl
    | cons b bs =>
      show (tokMatch (if a = '.' then RTok.dot else RTok.lit a) b &&
        matchHere (compilePat as) bs) = (charCI a b && leadMatch as bs)
      rw [if_neg ha, ih (fun c hc => hp c (List.mem_cons_of_mem a hc)) bs]
      rfl

/-- Over a pattern with no dot, regex search coincides with substring
search. -/
theorem regexSearch_all_lit (pat : List Char) (hp : ∀ c ∈ pat, ¬ c = '.') :
    ∀ l : List Char, regexSearch (compilePat pat) l = substrSearch pat l := by
  intro l
  induction l with
  | nil =>
    show matchHere (compilePat pat) [] = leadMatch pat []
    exact matchHere_all_lit pat hp []
  | cons b bs ih =>
    show (matchHere (compilePat pat) (b :: bs) || regexSearch (compilePat pat) bs) =
      (leadMatch pat (b :: bs) || substrSearch pat bs)
    rw [matchHere_all_lit pat hp, ih]

/-- Counterexample to C5 as stated: the search string is handed to the
engine as a regular expression, so the pattern x.z matches the name
xyz even though it is not a substring of it. -/
theorem C5_regex_counterexample :
    str_contains (Value.str "xyz") "x.z" = true ∧
    spec_substring_match (Value.str "xyz") "x.z" = false :=
  ⟨by decide, by decide⟩

/-- C5 amended: the name filter treats the search string as a
case-insensitive regular expression searched inside the Name; for
search strings free of regex metacharacters this is exactly the stated
case-insensitive substring match, the empty search string matches
every named record, and a missing name never matches any search
string. -/
theorem C5_name_search_amended :
    (∀ s : String, str_contains (Value.str s) "" = true) ∧
    (∀ pat : String, str_contains Value.nan pat = false) ∧
    (∀ q : ℚ, ∀ pat : String, str_contains (Value.num q) pat = false) ∧
    str_contains (Value.str "Penn State University") "state" = true ∧
    (∀ pat s : String, noMeta pat = true →
      str_contains (Value.str s) pat = spec_substring_match (Value.str s) pat) := by
  refine ⟨?_, fun pat => rfl, fun q pat => rfl, by decide, ?_⟩
  · intro s
    exact regexSearch_empty_pat s.data
  · intro pat s h
    have hp : ∀ c ∈ pat.data, ¬ c = '.' := by
      intro c hc hdot
      have hall := List.all_eq_true.mp h c hc
      rw [hdot] at hall
      exact absurd hall (by decide)
    show regexSearch (compilePat pat.data) s.data = substrSearch pat.data s.data
    exact regexSearch_all_lit pat.data hp s.data

/-- Witness for C5 amended at a concrete metacharacter-free search. -/
theorem C5_name_search_amended_witness :
    str_contains (Value.str "Penn State University") "tate" =
      spec_substring_match (Value.str "Penn State University") "tate" :=
  C5_name_search_amended.2.2.2.2 "tate" "Penn State University" (by decide)

/-- C9: with no state selected the state test is skipped entirely, so
membership in the filtered table depends only on the other filters;
with a non-empty selection the filtered table is exactly the rows that
pass the other filters and whose State is a selected member. -/
theorem C9_state_filter (df : List Record2) (c : Constraints2) :
    (c.selectedStates = [] →
      ∀ r : Record2, r ∈ filtered_df2 df c ↔ (r ∈ df ∧ baseMask2 c r = true)) ∧
    (c.selectedStates ≠ [] →
      ∀ r : Record2, r ∈ filtered_df2 df c ↔
        (r ∈ df ∧ baseMask2 c r = true ∧ isinStr r.state c.selectedStates = true)) := by
  constructor
  · intro he r
    unfold filtered_df2
    rw [he]
    simp [List.mem_filter]
  · intro hne r
    have hne2 : c.selectedStates.isEmpty = false := by
      rcases hss : c.selectedStates with _ | ⟨a, l⟩
      · exact absurd hss hne
      · rfl
    unfold filtered_df2
    rw [hne2]
    simp [List.mem_filter]
    tauto

/-- Witness for C9 with one selected state, at a concrete row. -/
theorem C9_state_filter_witness :
    sampleRec2 ∈ filtered_df2 sampleDf2 sampleC2PA ↔
      (sampleRec2 ∈ sampleDf2 ∧ baseMask2 sampleC2PA sampleRec2 = true ∧
        isinStr sampleRec2.state sampleC2PA.selectedStates = true) :=
  (C9_state_filter sampleDf2 sampleC2PA).2 (by decide) sampleRec2

/-- C1: when the row indices of the full table are distinct (as they
are for a freshly loaded dataframe), the filtered table and the
index-complement table partition the full table exactly: every row
lies in their union and no row lies in both. -/
theorem C1_filter_partition (df : List Record) (c : Constraints)
    (h : (df.map Record.idx).Nodup) :
    (∀ r : Record, r ∈ df ↔ (r ∈ filtered_df df c ∨ r ∈ filtered_out_df df c)) ∧
    (∀ r : Record, ¬ (r ∈ filtered_df df c ∧ r ∈ filtered_out_df df c)) := by
  have hcont : ∀ r : Record,
      ((((filtered_df df c).map Record.idx).contains r.idx) = true) ↔
        r.idx ∈ (filtered_df df c).map Record.idx := by
    intro r
    exact List.elem_iff
  constructor
  · intro r
    constructor
    · intro hr
      by_cases hm : rowMask c r = true
      · exact Or.inl (List.mem_filter.mpr ⟨hr, hm⟩)
      · refine Or.inr (List.mem_filter.mpr ⟨hr, ?_⟩)
        rw [Bool.not_eq_true']
        cases hct : (((filtered_df df c).map Record.idx).contains r.idx) with
        | false => rfl
        | true =>
          exfalso
          have hmem := (hcont r).mp hct
          obtain ⟨r2, hr2, he⟩ := List.mem_map.mp hmem
          have hr2df := List.mem_of_mem_filter hr2
          have hmask2 := (List.mem_filter.mp hr2).2
          have heq : r2 = r := List.inj_on_of_nodup_map h hr2df hr he
          rw [heq] at hmask2
          exact hm hmask2
    · intro hor
      rcases hor with h1 | h1
      · exact List.mem_of_mem_filter h1
      · exact List.mem_of_mem_filter h1
  · intro r hand
    obtain ⟨h1, h2⟩ := hand
    have hnotin := (List.mem_filter.mp h2).2
    rw [Bool.not_eq_true'] at hnotin
    have hin : (((filtered_df df c).map Record.idx).contains r.idx) = true :=
      (hcont r).mpr (List.mem_map.mpr ⟨r, h1, rfl⟩)
    rw [hin] at hnotin
    exact Bool.noConfusion hnotin

/-- Witness for C1 at the three-row scenario table of the spec. -/
theorem C1_filter_partition_witness :
    (∀ r : Record, r ∈ sampleDf ↔
      (r ∈ filtered_df sampleDf sampleC ∨ r ∈ filtered_out_df sampleDf sampleC)) ∧
    (∀ r : Record, ¬ (r ∈ filtered_df sampleDf sampleC ∧ r ∈ filtered_out_df sampleDf sampleC)) :=
  C1_filter_partition sampleDf sampleC (by decide)

/-- Binding an ok value in the Except monad just applies the
continuation. -/
theorem except_bind_ok {α β : Type} (a : α) (f : α → Except String β) :
    (Except.ok a >>= f) = f a := rfl

/-- mapME succeeds when the function succeeds on every cell, and every
output cell is an output of the function. -/
theorem mapME_ok (f : Value → Except String Value) :
    ∀ vs : List Value, (∀ v ∈ vs, (f v).isOk = true) →
      ∃ ws, mapME f vs = Except.ok ws ∧ ∀ w ∈ ws, ∃ v, f v = Except.ok w := by
  intro vs
  induction vs with
  | nil =>
    intro _
    exact ⟨[], rfl, by intro w hw; exact absurd hw (List.not_mem_nil w)⟩
  | cons v vs ih =>
    intro hall
    obtain ⟨w, hw⟩ := (except_isOk_iff (f v)).mp (hall v (List.mem_cons_self v vs))
    obtain ⟨ws, hws, hout⟩ := ih (fun u hu => hall u (List.mem_cons_of_mem v hu))
    refine ⟨w :: ws, ?_, ?_⟩
    · show (f v >>= fun w2 => mapME f vs >>= fun ws2 => Except.ok (w2 :: ws2)) =
        Except.ok (w :: ws)
      rw [hw, except_bind_ok, hws, except_bind_ok]
    · intro u hu
      rcases List.mem_cons.mp hu with h1 | h2
      · exact ⟨v, by rw [h1]; exact hw⟩
      · exact hout u h2

/-- An output of convert_percentage is never a string, so feeding it
back to convert_percentage cannot raise. -/
theorem cp_output_ok (v w : Value) (h : convert_percentage v = Except.ok w) :
    (convert_percentage w).isOk = true := by
  cases v with
  | nan =>
    have hw : Value.nan = w := by simpa [convert_percentage] using h
    rw [← hw]
    rfl
  | num q =>
    have hw : Value.num q = w := by simpa [convert_percentage] using h
    rw [← hw]
    rfl
  | str s =>
    rcases hpf : pyFloat (stripPct s) with _ | q
    · have hcp : convert_percentage (Value.str s) = Except.error "ValueError" := by
        simp only [convert_percentage]
        rw [hpf]
      rw [hcp] at h
      exact Except.noConfusion h
    · have hcp : convert_percentage (Value.str s) = Except.ok (Value.num (q / 100)) := by
        simp only [convert_percentage]
        rw [hpf]
      rw [hcp] at h
      injection h with h2
      rw [← h2]
      rfl

/-- applyColE with convert_percentage succeeds when every cell of the
designated columns converts, preserves the column names, and leaves
every column either untouched or holding only converter outputs. -/
theorem applyColE_ok (c : String) :
    ∀ t : Table, (∀ p ∈ t, p.1 = c → ∀ v ∈ p.2, (convert_percentage v).isOk = true) →
      ∃ t2, applyColE c convert_percentage t = Except.ok t2 ∧
        colNames t2 = colNames t ∧
        (∀ p ∈ t2, p ∈ t ∨ ∀ w ∈ p.2, ∃ v, convert_percentage v = Except.ok w) := by
  intro t
  induction t with
  | nil =>
    intro _
    exact ⟨[], rfl, rfl, by intro p hp; exact absurd hp (List.not_mem_nil p)⟩
  | cons p t ih =>
    intro hall
    obtain ⟨t2, ht2, hn, hmem⟩ := ih (fun q hq hqc => hall q (List.mem_cons_of_mem p hq) hqc)
    by_cases hc : p.1 = c
    · obtain ⟨ws, hws, hout⟩ :=
        mapME_ok convert_percentage p.2 (hall p (List.mem_cons_self p t) hc)
      refine ⟨(p.1, ws) :: t2, ?_, ?_, ?_⟩
      · have hd : (decide (p.1 = c)) = true := decide_eq_true hc
        show (if decide (p.1 = c) = true then
            (mapME convert_percentage p.2 >>= fun vs =>
              applyColE c convert_percentage t >>= fun t3 => Except.ok ((p.1, vs) :: t3))
          else (applyColE c convert_percentage t >>= fun t3 => Except.ok (p :: t3))) =
          Except.ok ((p.1, ws) :: t2)
        rw [hd, if_pos rfl, hws, except_bind_ok, ht2, except_bind_ok]
      · show p.1 :: colNames t2 = p.1 :: colNames t
        rw [hn]
      · intro q hq
        rcases List.mem_cons.mp hq with h1 | h2
        · subst h1
          exact Or.inr (fun w hw => hout w hw)
        · rcases hmem q h2 with hin | hout2
          · exact Or.inl (List.mem_cons_of_mem p hin)
          · exact Or.inr hout2
    · refine ⟨p :: t2, ?_, ?_, ?_⟩
      · have hd : (decide (p.1 = c)) = false := decide_eq_false hc
        show (if decide (p.1 = c) = true then
            (mapME convert_percentage p.2 >>= fun vs =>
              applyColE c convert_percentage t >>= fun t3 => Except.ok ((p.1, vs) :: t3))
          else (applyColE c convert_percentage t >>= fun t3 => Except.ok (p :: t3))) =
          Except.ok (p :: t2)
        rw [hd, if_neg (by simp), ht2, except_bind_ok]
      · show p.1 :: colNames t2 = p.1 :: colNames t
        rw [hn]
      · intro q hq
        rcases List.mem_cons.mp hq with h1 | h2
        · rw [h1]
          exact Or.inl (List.mem_cons_self p t)
        · rcases hmem q h2 with hin | hout2
          · exact Or.inl (List.mem_cons_of_mem p hin)
          · exact Or.inr hout2

/-- The percentage loop succeeds when every cell of the designated
columns converts, and it preserves the column names; every column of
the result is untouched or holds only converter outputs. -/
theorem pct_fold_ok :
    ∀ (cols : List String) (t : Table),
      (∀ p ∈ t, p.1 ∈ cols → ∀ v ∈ p.2, (convert_percentage v).isOk = true) →
      ∃ t2, List.foldlM pctStep t cols = Except.ok t2 ∧ colNames t2 = colNames t ∧
        (∀ p ∈ t2, p ∈ t ∨ ∀ w ∈ p.2, ∃ v, convert_percentage v = Except.ok w) := by
  intro cols
  induction cols with
  | nil =>
    intro t _
    exact ⟨t, rfl, rfl, fun p hp => Or.inl hp⟩
  | cons c cs ih =>
    intro t hall
    by_cases hc : hasCol t c = true
    · obtain ⟨t1, ht1, hn1, hm1⟩ := applyColE_ok c t
        (fun p hp hpc => hall p hp (by rw [hpc]; exact List.mem_cons_self c cs))
      have hall1 : ∀ p ∈ t1, p.1 ∈ cs → ∀ v ∈ p.2, (convert_percentage v).isOk = true := by
        intro p hp hpcs v hv
        rcases hm1 p hp with hin | hout
        · exact hall p hin (List.mem_cons_of_mem c hpcs) v hv
        · obtain ⟨u, hu⟩ := hout v hv
          exact cp_output_ok u v hu
      obtain ⟨t2, ht2, hn2, hm2⟩ := ih t1 hall1
      refine ⟨t2, ?_, hn2.trans hn1, ?_⟩
      · rw [List.foldlM_cons]
        have hstep : pctStep t c = Except.ok t1 := by
          simp [pctStep, hc, ht1]
        rw [hstep, except_bind_ok]
        exact ht2
      · intro p hp
        rcases hm2 p hp with hin1 | hout
        · rcases hm1 p hin1 with hin | hout1
          · exact Or.inl hin
          · exact Or.inr hout1
        · exact Or.inr hout
    · have hstep : pctStep t c = Except.ok t := by
        simp [pctStep, hc]
      obtain ⟨t2, ht2, hn2, hm2⟩ :=
        ih t (fun p hp hpcs v hv => hall p hp (List.mem_cons_of_mem c hpcs) v hv)
      refine ⟨t2, ?_, hn2, hm2⟩
      rw [List.foldlM_cons, hstep, except_bind_ok]
      exact ht2

/-- applyCol never changes the column names. -/
theorem colNames_applyCol (c : String) (f : Value → Value) (t : Table) :
    colNames (applyCol c f t) = colNames t := by
  induction t with
  | nil => rfl
  | cons p t ih =>
    simp only [applyCol, colNames, List.map_cons] at ih ⊢
    by_cases h : p.1 = c
    · simp [h, ih]
      intro a b _
      by_cases hac : a = c <;> simp [hac]
    · simp [h, ih]
      intro a b _
      by_cases hac : a = c <;> simp [hac]

/-- The column names of the renamed table are the renames of the
column names, so they depend only on the original names. -/
theorem colNames_renameCols (t : Table) :
    colNames (renameCols t) = (colNames t).map (renameName (colNames t)) := by
  unfold renameCols colNames
  rw [List.map_map, List.map_map]
  rfl

/-- Tables with the same column names have the same columns after the
rename. -/
theorem hasCol_renameCols_congr (u t : Table) (h : colNames u = colNames t) (x : String) :
    hasCol (renameCols u) x = hasCol (renameCols t) x := by
  unfold hasCol
  rw [colNames_renameCols, colNames_renameCols, h]

/-- setCol keeps every column that the table already had. -/
theorem hasCol_setCol (t : Table) (c d : String) (vs : List Value)
    (h : hasCol t d = true) :
    hasCol (setCol t c vs) d = true := by
  unfold setCol
  by_cases hc : hasCol t c = true
  · rw [if_pos hc]
    have hover : colNames (t.map (fun p => if decide (p.1 = c) then (c, vs) else p)) =
        colNames t := by
      induction t with
      | nil => rfl
      | cons p t2 ih =>
        simp only [colNames, List.map_cons] at ih ⊢
        by_cases h2 : p.1 = c
        · simp [h2]
          intro a b _
          by_cases hac : a = c <;> simp [hac]
        · simp [h2]
          intro a b _
          by_cases hac : a = c <;> simp [hac]
    unfold hasCol
    rw [hover]
    exact h
  · rw [if_neg hc]
    have h3 : colNames (t ++ [(c, vs)]) = colNames t ++ [c] := by
      unfold colNames
      rw [List.map_append]
      rfl
    unfold hasCol nameHasCol at h ⊢
    rw [h3, List.any_append, h]
    rfl

/-- A present column reads back without a KeyError. -/
theorem getCol_ok (t : Table) (c : String) (h : hasCol t c = true) :
    ∃ vs, getCol t c = Except.ok vs := by
  have hex : ∃ p ∈ t, (decide (p.1 = c)) = true := by
    unfold hasCol nameHasCol colNames at h
    obtain ⟨x, hx, hxc⟩ := List.any_eq_true.mp h
    obtain ⟨p, hp, hpx⟩ := List.mem_map.mp hx
    refine ⟨p, hp, ?_⟩
    rw [hpx]
    exact hxc
  have hfind : (List.find? (fun p => decide (p.1 = c)) t).isSome := by
    rw [List.find?_isSome]
    exact hex
  rcases hf : List.find? (fun p => decide (p.1 = c)) t with _ | q
  · rw [hf] at hfind
    exact absurd hfind (by simp)
  · refine ⟨q.2, ?_⟩
    unfold getCol
    rw [hf]

/-- After the percentage loop, the rest of load_data succeeds exactly
when the renamed table carries a Control column and an
Earnings to Price Ratio column; all the other steps are total. -/
theorem load_tail_ok (t1 : Table)
    (hctrl : hasCol (renameCols t1) "Control" = true)
    (hratio : hasCol (renameCols t1) "Earnings to Price Ratio" = true) :
    (load_tail t1).isOk = true := by
  simp only [load_tail]
  set t2 := (if hasCol t1 "Average net price over four years (Itkowitz)" then
      applyCol "Average net price over four years (Itkowitz)" safe_float t1 else t1)
    with ht2def
  set t3 := (if hasCol t2 "Earnings-to-Price Ratio (Itzkowitz)" then
      applyCol "Earnings-to-Price Ratio (Itzkowitz)" to_numeric t2 else t2)
    with ht3def
  have hn2 : colNames t2 = colNames t1 := by
    rw [ht2def]
    by_cases h : hasCol t1 "Average net price over four years (Itkowitz)" = true
    · rw [if_pos h]
      exact colNames_applyCol _ _ _
    · rw [if_neg h]
  have hn3 : colNames t3 = colNames t2 := by
    rw [ht3def]
    by_cases h : hasCol t2 "Earnings-to-Price Ratio (Itzkowitz)" = true
    · rw [if_pos h]
      exact colNames_applyCol _ _ _
    · rw [if_neg h]
  have hnames : colNames t3 = colNames t1 := hn3.trans hn2
  have hctrl3 : hasCol (renameCols t3) "Control" = true := by
    rw [hasCol_renameCols_congr t3 t1 hnames]
    exact hctrl
  have hratio3 : hasCol (renameCols t3) "Earnings to Price Ratio" = true := by
    rw [hasCol_renameCols_congr t3 t1 hnames]
    exact hratio
  obtain ⟨ctrl, hget⟩ := getCol_ok (renameCols t3) "Control" hctrl3
  have hratio4 : hasCol (setCol (renameCols t3) "Institution Type" (ctrl.map control_map))
      "Earnings to Price Ratio" = true :=
    hasCol_setCol _ _ _ _ hratio3
  obtain ⟨ev, hget2⟩ := getCol_ok _ _ hratio4
  rw [hget, except_bind_ok, hget2, except_bind_ok]
  rfl

/-- Counterexample to C3 as stated: a perfectly readable table that
merely lacks the coded Control column makes load_data raise a KeyError
instead of skipping the Institution Type derivation. -/
theorem C3_missing_control_counterexample :
    load_data [("Institution Name", [Value.str "A"])] =
      Except.error "KeyError: Control" := rfl

/-- C3 amended: absence of the designated percentage, currency and
ratio columns and of rename keys is indeed skipped, but load_data
unconditionally reads the Control column to derive Institution Type
and (in dashboard 1) the renamed Earnings to Price Ratio column for a
diagnostic, so it succeeds exactly on tables that provide those two
columns (and whose percentage cells all convert), and raises a
KeyError otherwise. -/
theorem C3_load_amended (t : Table)
    (hp : ∀ p ∈ t, p.1 ∈ percentage_columns → ∀ v ∈ p.2, (convert_percentage v).isOk = true)
    (hctrl : hasCol (renameCols t) "Control" = true)
    (hratio : hasCol (renameCols t) "Earnings to Price Ratio" = true) :
    ∃ u, load_data t = Except.ok u := by
  obtain ⟨t1, hf, hn1, _⟩ := pct_fold_ok percentage_columns t hp
  have hctrl1 : hasCol (renameCols t1) "Control" = true := by
    rw [hasCol_renameCols_congr t1 t hn1]
    exact hctrl
  have hratio1 : hasCol (renameCols t1) "Earnings to Price Ratio" = true := by
    rw [hasCol_renameCols_congr t1 t hn1]
    exact hratio
  have htail := load_tail_ok t1 hctrl1 hratio1
  rw [except_isOk_iff] at htail
  obtain ⟨u, hu⟩ := htail
  refine ⟨u, ?_⟩
  unfold load_data
  rw [hf, except_bind_ok]
  exact hu

/-- Witness for C3 amended: a table holding only the Control and
earnings-ratio source columns loads successfully even though every
other designated column is absent. -/
theorem C3_load_amended_witness :
    ∃ u, load_data [("Control of institution (IPEDS)", [Value.num 1]),
        ("Earnings-to-Price Ratio (Itzkowitz)", [Value.str "1.5"])] = Except.ok u :=
  C3_load_amended _ (by decide) (by decide) (by decide)
